import Mathlib

/-!
Verification development for the Tidepool report generator
(`tidepoolreport.go`).  The Go program logs in to the Tidepool service,
fetches blood-glucose measurements as JSON, classifies the response
(measurement array vs service-error object), extracts the `smbg`
readings into date/time/value records and renders them to a PDF.

The embedding below translates the pipeline from the Go source:

* `Json` / `parseJson` — model of the JSON values and of Go's
  `encoding/json` syntactic parse (strict numbers, full input consumed).
* `decodeMeasurementsJson` / `decodeTpErrorJson` — model of
  `json.Unmarshal` into the `tpMeasurement` slice and the `tpError`
  struct (top-level shape check, case-insensitive field matching,
  zero values for absent fields).
* `convertOne` / `extract` — the loop of `decodeTidepoolData`:
  subtype filtering, `deviceTime` slicing (with Go's bounds panic
  modeled as `Option.none`), and the ×18 unit conversion truncated
  toward zero via `Int.tdiv` (Go's `int(float64)` conversion).
  `float64` values are modeled as exact rationals.
* `checkDateRanges` — the optional date-range query-string builder.
* `send` — the handler's data flow from the two HTTP responses to the
  rendered outcome, including the `check(nil, msg)` calls at the two
  status tests and the `fmt.Sprintf("%v", result["userid"])` coercion.
-/

namespace TidepoolReport

/-- JSON values, as decoded by Go's `encoding/json` into `interface\x7b\x7d`:
null, booleans, numbers (modeled as exact rationals), strings, arrays
and objects (field list in source order; duplicate keys allowed, the
last occurrence wins on lookup). -/
inductive Json where
  | null
  | bool (b : Bool)
  | num (q : ℚ)
  | str (s : String)
  | arr (elems : List Json)
  | obj (fields : List (String × Json))

/-- Drop leading JSON whitespace. -/
def skipWs : List Char → List Char
  | c :: cs => if c = ' ' ∨ c = '\t' ∨ c = '\n' ∨ c = '\r' then skipWs cs else c :: cs
  | [] => []

/-- Single-character JSON string escapes. -/
def escChar (e : Char) : Option Char :=
  if e = 'n' then some '\n'
  else if e = 't' then some '\t'
  else if e = 'r' then some '\r'
  else if e = '"' then some '"'
  else if e = '\\' then some '\\'
  else if e = '/' then some '/'
  else if e = 'b' then some (Char.ofNat 8)
  else if e = 'f' then some (Char.ofNat 12)
  else none

/-- Hexadecimal digit value. -/
def hexVal (c : Char) : Option Nat :=
  if '0' ≤ c ∧ c ≤ '9' then some (c.toNat - '0'.toNat)
  else if 'a' ≤ c ∧ c ≤ 'f' then some (c.toNat - 'a'.toNat + 10)
  else if 'A' ≤ c ∧ c ≤ 'F' then some (c.toNat - 'A'.toNat + 10)
  else none

/-- Parse the body of a JSON string literal (the opening quote already
consumed), returning the decoded characters and the rest of the input. -/
def parseStringChars : List Char → Option (List Char × List Char)
  | [] => none
  | '"' :: rest => some ([], rest)
  | '\\' :: 'u' :: h1 :: h2 :: h3 :: h4 :: rest => do
    let v1 ← hexVal h1
    let v2 ← hexVal h2
    let v3 ← hexVal h3
    let v4 ← hexVal h4
    let (s, r) ← parseStringChars rest
    pure (Char.ofNat (((v1 * 16 + v2) * 16 + v3) * 16 + v4) :: s, r)
  | '\\' :: e :: rest => do
    let c ← escChar e
    let (s, r) ← parseStringChars rest
    pure (c :: s, r)
  | c :: rest => do
    let (s, r) ← parseStringChars rest
    pure (c :: s, r)

/-- Numeric value of a list of decimal digits. -/
def digitsVal (ds : List Char) : Nat :=
  ds.foldl (fun n c => n * 10 + (c.toNat - '0'.toNat)) 0

/-- Parse an optional exponent suffix (the `e`/`E` already consumed). -/
def parseExp (q : ℚ) (cs : List Char) : Option (ℚ × List Char) :=
  let (neg, cs1) :=
    match cs with
    | '-' :: r => (true, r)
    | '+' :: r => (false, r)
    | _ => (false, cs)
  let ds := cs1.takeWhile Char.isDigit
  let r := cs1.dropWhile Char.isDigit
  if ds.isEmpty then none
  else some ((if neg then q / (10 : ℚ) ^ digitsVal ds else q * (10 : ℚ) ^ digitsVal ds), r)

/-- Parse the magnitude of a JSON number (strict grammar: no leading
zeros, a fraction part requires digits). -/
def parseNumMag (cs : List Char) : Option (ℚ × List Char) :=
  let intDigits := cs.takeWhile Char.isDigit
  let rest0 := cs.dropWhile Char.isDigit
  if intDigits.isEmpty then none
  else if 2 ≤ intDigits.length ∧ intDigits.head? = some '0' then none
  else
    let step1 : Option (ℚ × List Char) :=
      match rest0 with
      | '.' :: r =>
        let fd := r.takeWhile Char.isDigit
        let r2 := r.dropWhile Char.isDigit
        if fd.isEmpty then none
        else some ((digitsVal intDigits : ℚ) + (digitsVal fd : ℚ) / (10 : ℚ) ^ fd.length, r2)
      | _ => some ((digitsVal intDigits : ℚ), rest0)
    match step1 with
    | none => none
    | some (q, r) =>
      match r with
      | 'e' :: r1 => parseExp q r1
      | 'E' :: r1 => parseExp q r1
      | _ => some (q, r)

/-- Parse a JSON number with optional leading minus sign. -/
def parseNumber (cs : List Char) : Option (ℚ × List Char) :=
  match cs with
  | '-' :: rest => (parseNumMag rest).map (fun qr => (-qr.1, qr.2))
  | _ => parseNumMag cs

/-- Parse the comma-separated elements of a non-empty JSON array,
given the element parser `p` (which skips its own leading whitespace). -/
def parseElems (p : List Char → Option (Json × List Char)) :
    Nat → List Char → Option (List Json × List Char)
  | 0, _ => none
  | fuel + 1, cs =>
    match p cs with
    | none => none
    | some (j, rest) =>
      match skipWs rest with
      | ',' :: rest2 =>
        match parseElems p fuel rest2 with
        | some (js, rest3) => some (j :: js, rest3)
        | none => none
      | ']' :: rest2 => some ([j], rest2)
      | _ => none

/-- Parse the comma-separated members of a non-empty JSON object,
given the value parser `p`. -/
def parseFields (p : List Char → Option (Json × List Char)) :
    Nat → List Char → Option (List (String × Json) × List Char)
  | 0, _ => none
  | fuel + 1, cs =>
    match skipWs cs with
    | '"' :: rest =>
      match parseStringChars rest with
      | none => none
      | some (key, rest1) =>
        match skipWs rest1 with
        | ':' :: rest2 =>
          match p rest2 with
          | none => none
          | some (v, rest3) =>
            match skipWs rest3 with
            | ',' :: rest4 =>
              match parseFields p fuel rest4 with
              | some (fs, rest5) => some ((String.mk key, v) :: fs, rest5)
              | none => none
            | '}' :: rest4 => some ([(String.mk key, v)], rest4)
            | _ => none
        | _ => none
    | _ => none

/-- Parse one JSON value, fueled to bound the nesting depth. -/
def parseValue : Nat → List Char → Option (Json × List Char)
  | 0, _ => none
  | fuel + 1, cs =>
    match skipWs cs with
    | 'n' :: 'u' :: 'l' :: 'l' :: rest => some (.null, rest)
    | 't' :: 'r' :: 'u' :: 'e' :: rest => some (.bool true, rest)
    | 'f' :: 'a' :: 'l' :: 's' :: 'e' :: rest => some (.bool false, rest)
    | '"' :: rest => (parseStringChars rest).map (fun sr => (.str (String.mk sr.1), sr.2))
    | '[' :: rest =>
      (match skipWs rest with
       | ']' :: rest2 => some (.arr [], rest2)
       | _ => (parseElems (parseValue fuel) fuel rest).map (fun er => (.arr er.1, er.2)))
    | '{' :: rest =>
      (match skipWs rest with
       | '}' :: rest2 => some (.obj [], rest2)
       | _ => (parseFields (parseValue fuel) fuel rest).map (fun fr => (.obj fr.1, fr.2)))
    | c :: restAll =>
      if c = '-' ∨ c.isDigit then (parseNumber (c :: restAll)).map (fun qr => (.num qr.1, qr.2))
      else none
    | [] => none

/-- Parse a whole string as one JSON document.  Like `json.Unmarshal`,
anything but whitespace after the top-level value is a syntax error. -/
def parseJson (s : String) : Option Json :=
  match parseValue (s.length + 1) s.data with
  | some (j, rest) => if (skipWs rest).isEmpty then some j else none
  | none => none

/-- The fields of the Go `tpMeasurement` element struct that the
pipeline reads (json tags `type`, `deviceTime`, `value`, `units`).
The Go struct declares further metadata fields that no function of the
program reads; the decoder model ignores those keys (Go would in
addition type-check them when present). `float64` is modeled as ℚ. -/
structure RawMeasurement where
  type_ : String
  Devicetime : String
  Value : ℚ
  Units : String
deriving DecidableEq

/-- The record handed to the PDF generator: date, time and value as
strings (Go struct `Smbg`). -/
structure Smbg where
  smbgDate : String
  smbgTime : String
  smbgValue : String
deriving DecidableEq

/-- Tidepool error response message (Go struct `tpError`), for things
like 403 errors when the user enters invalid credentials. -/
structure tpError where
  Status : Int
  Id : String
  Code : String
  Message : String
deriving DecidableEq

/-- ASCII lower-casing of one character. -/
def lowerChar (c : Char) : Char :=
  if 'A' ≤ c ∧ c ≤ 'Z' then Char.ofNat (c.toNat + 32) else c

/-- Case-insensitive string equality (ASCII folding), as Go's
`encoding/json` uses for struct-field matching and `net/http` for
header keys. -/
def eqFold (a b : String) : Bool :=
  a.data.map lowerChar == b.data.map lowerChar

/-- Key lookup for `json.Unmarshal` into a struct: an exact match of
the candidate name is preferred, otherwise a case-insensitive match is
accepted; with duplicate keys the last occurrence wins. -/
def structLookup (fields : List (String × Json)) (key : String) : Option Json :=
  match fields.reverse.find? (fun kv => kv.1 == key) with
  | some kv => some kv.2
  | none => (fields.reverse.find? (fun kv => eqFold kv.1 key)).map (fun kv => kv.2)

/-- Decode a JSON value into a Go `string` field: absence and `null`
leave the zero value, a string is taken verbatim, anything else is an
unmarshal type error. -/
def asGoString : Option Json → Option String
  | none => some ""
  | some .null => some ""
  | some (.str s) => some s
  | some _ => none

/-- Decode a JSON value into a Go `float64` field. -/
def asGoRat : Option Json → Option ℚ
  | none => some 0
  | some .null => some 0
  | some (.num q) => some q
  | some _ => none

/-- Decode a JSON value into a Go `int` field: the number must be
integral (Go rejects fractional literals for integer fields). -/
def asGoInt : Option Json → Option Int
  | none => some 0
  | some .null => some 0
  | some (.num q) => if q.den = 1 then some q.num else none
  | some _ => none

/-- Decode one element of the measurement array, as `json.Unmarshal`
does for the `tpMeasurement` element struct: the element must be an
object (or `null`, which leaves the zero struct). -/
def decodeMeasurement : Json → Option RawMeasurement
  | .null => some ⟨"", "", 0, ""⟩
  | .obj fields => do
    let t ← asGoString (structLookup fields "type")
    let dt ← asGoString (structLookup fields "deviceTime")
    let v ← asGoRat (structLookup fields "value")
    let u ← asGoString (structLookup fields "units")
    pure ⟨t, dt, v, u⟩
  | _ => none

/-- Decode a JSON document into the `tpMeasurement` slice: the
top-level value must be an array (`null` leaves the nil slice);
unmarshaling any other shape into a slice is a type error. -/
def decodeMeasurementsJson : Json → Option (List RawMeasurement)
  | .null => some []
  | .arr elems => elems.mapM decodeMeasurement
  | _ => none

/-- The `json.Unmarshal(file, &result)` call of `decodeTidepoolData`:
syntactic parse followed by the slice-shaped decode. -/
def unmarshalMeasurements (body : String) : Option (List RawMeasurement) :=
  (parseJson body).bind decodeMeasurementsJson

/-- Decode a JSON document into the `tpError` struct (the unmarshal in
`CheckTidepoolErrorResponse`): the top-level value must be an object
(or `null`); the untagged Go field names `Status`, `Id`, `Code`,
`Message` match the incoming keys case-insensitively. -/
def decodeTpErrorJson : Json → Option tpError
  | .null => some ⟨0, "", "", ""⟩
  | .obj fields => do
    let s ← asGoInt (structLookup fields "Status")
    let i ← asGoString (structLookup fields "Id")
    let c ← asGoString (structLookup fields "Code")
    let m ← asGoString (structLookup fields "Message")
    pure ⟨s, i, c, m⟩
  | _ => none

/-- The `json.Unmarshal(file, &tpe)` call of
`CheckTidepoolErrorResponse`. -/
def unmarshalTpError (body : String) : Option tpError :=
  (parseJson body).bind decodeTpErrorJson

/-- Go string slicing `s[i:j]`: defined when `i ≤ j ≤ len(s)`,
otherwise a runtime panic (modeled as `none`). -/
def goSlice (s : String) (i j : Nat) : Option String :=
  if i ≤ j ∧ j ≤ s.length then some (String.mk ((s.data.drop i).take (j - i))) else none

/-- Go's `int(x)` conversion of a floating-point value: truncation
toward zero (`Int.tdiv` is t-division). -/
def goInt (q : ℚ) : Int :=
  Int.tdiv q.num q.den

/-- The body of the `decodeTidepoolData` loop for one matching
element: slice the device timestamp into date (`measdt[:10]`) and time
(`measdt[11:19]`) and render `strconv.Itoa(int(value * 18))`.  A
failing slice is Go's bounds panic. -/
def convertOne (m : RawMeasurement) : Option Smbg := do
  let measDate ← goSlice m.Devicetime 0 10
  let measTime ← goSlice m.Devicetime 11 19
  pure ⟨measDate, measTime, toString (goInt (m.Value * 18))⟩

/-- The scan loop of `decodeTidepoolData`: elements whose `Type` is
not `"smbg"` are skipped (`continue`), matching elements are converted
and appended in order; a conversion panic aborts the whole loop. -/
def extract : List RawMeasurement → Option (List Smbg)
  | [] => some []
  | m :: rest =>
    if m.type_ ≠ "smbg" then extract rest
    else
      match convertOne m, extract rest with
      | some r, some tail => some (r :: tail)
      | _, _ => none

/-- Outcome of `decodeTidepoolData` on a response body (the file
round-trip through `tidepool.json` is the identity and is elided):
either the unmarshal error `"Tidepool appears to have returned an
error response"`, or a slicing panic, or the extracted records. -/
inductive DecodeOutcome where
  | unmarshalError
  | panicked
  | ok (s : List Smbg)
deriving DecidableEq

/-- The `decodeTidepoolData` function: unmarshal the measurement
slice, then run the extraction loop. -/
def decodeTidepoolData (body : String) : DecodeOutcome :=
  match unmarshalMeasurements body with
  | none => .unmarshalError
  | some ms =>
    match extract ms with
    | none => .panicked
    | some s => .ok s

/-- Classification of a fetched payload, as performed by `send`:
`decodeTidepoolData`'s unmarshal is attempted first; only if it fails
is the payload handed to `CheckTidepoolErrorResponse` and parsed as a
`tpError`; if that also fails the payload is unclassifiable. -/
inductive ClassifyResult where
  | success (ms : List RawMeasurement)
  | serviceError (e : tpError)
  | malformed
deriving DecidableEq

/-- Shape classification of the data response body (success array vs
service-error object vs malformed payload), following the parse order
of `send` / `CheckTidepoolErrorResponse`. -/
def classify (body : String) : ClassifyResult :=
  match unmarshalMeasurements body with
  | some ms => .success ms
  | none =>
    match unmarshalTpError body with
    | some e => .serviceError e
    | none => .malformed

/-- The `checkDateRanges` function: build the optional
`startDate`/`endDate` query-string fragment from the two form inputs. -/
def checkDateRanges (sdate edate : String) : String :=
  let qs : String := ""
  if sdate = "" ∧ edate = "" then qs
  else
    let datetail : String := "T01:00:00.000Z"
    let qs := if sdate ≠ "" then qs ++ "&startDate=" ++ sdate ++ datetail else qs
    let qs := if edate ≠ "" then qs ++ "&endDate=" ++ edate ++ datetail else qs
    qs

/-- An HTTP response as `send` observes it: numeric status code,
status text (`resp.Status`), headers and body. -/
structure HttpResponse where
  statusCode : Nat
  status : String
  headers : List (String × String)
  body : String

/-- The `check(e, msg)` helper: it calls `log.Fatal` (aborting the
process) exactly when the error it is handed is non-nil.  The model
returns whether the process aborts. -/
def check (e : Option String) ( _msg : String) : Bool :=
  e.isSome

/-- Go's `resp.Header.Get`: canonicalized (case-insensitive) key
lookup, empty string when absent. -/
def headerGet (hs : List (String × String)) (key : String) : String :=
  match hs.find? (fun kv => eqFold kv.1 key) with
  | some kv => kv.2
  | none => ""

/-- The `json.Unmarshal(bytes, &result)` of the login body into
`map[string]interface\x7b\x7d`, whose error `send` discards: a JSON object
yields its fields, anything else (including a syntax error) leaves the
map nil. -/
def unmarshalStringMap (body : String) : List (String × Json) :=
  match parseJson body with
  | some (.obj fields) => fields
  | _ => []

/-- Go map indexing `result[key]`: exact-key lookup, the nil interface
when absent (with duplicate JSON keys the last occurrence wins). -/
def mapLookup (m : List (String × Json)) (key : String) : Option Json :=
  (m.reverse.find? (fun kv => kv.1 == key)).map (fun kv => kv.2)

/-- Go `fmt.Sprintf` with the `%v` verb on a decoded interface value.
Strings print verbatim, booleans as `true`/`false`, JSON `null`
decodes to the nil interface which prints as `"<nil>"`.  Numeric and
composite rendering is approximated (no function of the program
observes those branches). -/
def goFormatV : Json → String
  | .null => "<nil>"
  | .bool b => if b then "true" else "false"
  | .str s => s
  | .num q => if q.den = 1 then toString q.num else toString q.num ++ "/" ++ toString q.den
  | .arr _ => "[...]"
  | .obj _ => "map[...]"

/-- `fmt.Sprintf("%v", result[key])` applied to a map lookup: a missing
key is the nil interface and prints as `"<nil>"`. -/
def sprintfV : Option Json → String
  | none => "<nil>"
  | some v => goFormatV v

/-- What `send` renders after the data phase: the PDF of the extracted
rows, the Tidepool error page (`CheckTidepoolErrorResponse` succeeded
on the body), nothing (`CheckTidepoolErrorResponse` could not decode
the body either), or a runtime panic in `decodeTidepoolData`. -/
inductive SendOutcome where
  | pdf (rows : List Smbg)
  | errorPage (e : tpError)
  | undecodable
  | panicked
deriving DecidableEq

/-- Observable results of one run of the `send` handler. -/
structure SendResult where
  authCheckAborted : Bool
  token : String
  userid : String
  dataUrl : String
  dataCheckAborted : Bool
  outcome : SendOutcome

/-- The `send` handler from the two HTTP responses (login and data) to
its observable result, translated statement by statement.  Network and
file I/O are modeled as succeeding; the responses are inputs.  Note
both status tests hand `check` a nil error, so neither can abort. -/
def send (startdate enddate datatype : String)
    (loginResp dataResp : HttpResponse) : SendResult :=
  let authCheckAborted :=
    if loginResp.statusCode ≠ 200 then
      check none ("Authorization Call: Bad request response" ++ loginResp.status)
    else false
  let token := headerGet loginResp.headers "x-tidepool-session-token"
  let result := unmarshalStringMap loginResp.body
  let userid := sprintfV (mapLookup result "userid")
  let url := "https://int-api.tidepool.org/data/" ++ userid ++ "?type=" ++ datatype
  let queryString := checkDateRanges startdate enddate
  let url := if queryString ≠ "" then url ++ queryString else url
  let dataCheckAborted :=
    if dataResp.statusCode ≠ 200 then
      check none ("Data API call: Unexpected response status =  " ++ dataResp.status)
    else false
  let outcome :=
    match decodeTidepoolData dataResp.body with
    | .unmarshalError =>
      match unmarshalTpError dataResp.body with
      | some e => SendOutcome.errorPage e
      | none => SendOutcome.undecodable
    | .panicked => SendOutcome.panicked
    | .ok s => SendOutcome.pdf s
  ⟨authCheckAborted, token, userid, url, dataCheckAborted, outcome⟩

/-! ## Supporting lemmas -/

theorem goSlice_eq_some (s : String) (i j : Nat) (h1 : i ≤ j) (h2 : j ≤ s.length) :
    goSlice s i j = some (String.mk ((s.data.drop i).take (j - i))) := by
  unfold goSlice
  rw [if_pos ⟨h1, h2⟩]

theorem goSlice_eq_none (s : String) (i j : Nat) (h : ¬(i ≤ j ∧ j ≤ s.length)) :
    goSlice s i j = none := by
  unfold goSlice
  rw [if_neg h]

theorem convertOne_eq_of_le (m : RawMeasurement) (h : 19 ≤ m.Devicetime.length) :
    convertOne m = some ⟨String.mk (m.Devicetime.data.take 10),
        String.mk ((m.Devicetime.data.drop 11).take 8),
        toString (goInt (m.Value * 18))⟩ := by
  have h10 : (10 : Nat) ≤ m.Devicetime.length := by omega
  simp [convertOne, goSlice_eq_some m.Devicetime 0 10 (by omega) h10,
    goSlice_eq_some m.Devicetime 11 19 (by omega) h]

theorem convertOne_eq_none_of_lt (m : RawMeasurement) (h : m.Devicetime.length < 19) :
    convertOne m = none := by
  by_cases h10 : 10 ≤ m.Devicetime.length
  · simp [convertOne, goSlice_eq_some m.Devicetime 0 10 (by omega) h10,
      goSlice_eq_none m.Devicetime 11 19 (by omega)]
  · simp [convertOne, goSlice_eq_none m.Devicetime 0 10 (by omega)]

theorem convertOne_some_iff {m : RawMeasurement} {r : Smbg} :
    convertOne m = some r ↔
      19 ≤ m.Devicetime.length ∧
      r = ⟨String.mk (m.Devicetime.data.take 10),
           String.mk ((m.Devicetime.data.drop 11).take 8),
           toString (goInt (m.Value * 18))⟩ := by
  constructor
  · intro h
    rcases Nat.lt_or_ge m.Devicetime.length 19 with hl | hl
    · rw [convertOne_eq_none_of_lt m hl] at h
      cases h
    · rw [convertOne_eq_of_le m hl] at h
      exact ⟨hl, (Option.some_inj.mp h).symm⟩
  · rintro ⟨hl, rfl⟩
    exact convertOne_eq_of_le m hl

theorem extract_cons_skip (m : RawMeasurement) (rest : List RawMeasurement)
    (h : m.type_ ≠ "smbg") : extract (m :: rest) = extract rest := by
  simp [extract, h]

theorem extract_cons_smbg (m : RawMeasurement) (rest : List RawMeasurement)
    (h : m.type_ = "smbg") :
    extract (m :: rest) =
      match convertOne m, extract rest with
      | some r, some tail => some (r :: tail)
      | _, _ => none := by
  simp [extract, h]

theorem extract_length : ∀ {ms : List RawMeasurement} {s : List Smbg},
    extract ms = some s → s.length ≤ ms.length := by
  intro ms
  induction ms with
  | nil =>
    intro s h
    rw [show extract [] = some [] from rfl] at h
    rw [← Option.some_inj.mp h]
    exact Nat.le_refl 0
  | cons m rest ih =>
    intro s h
    by_cases hm : m.type_ = "smbg"
    · rw [extract_cons_smbg m rest hm] at h
      cases hc : convertOne m with
      | none => rw [hc] at h; cases h
      | some r =>
        rw [hc] at h
        cases he : extract rest with
        | none => rw [he] at h; cases h
        | some tail =>
          rw [he] at h
          rw [← Option.some_inj.mp h]
          exact Nat.succ_le_succ (ih he)
    · rw [extract_cons_skip m rest hm] at h
      exact (ih h).trans (Nat.le_succ _)

theorem extract_forall2 : ∀ {ms : List RawMeasurement} {s : List Smbg},
    extract ms = some s →
    List.Forall₂ (fun m r => m.type_ = "smbg" ∧ convertOne m = some r)
      (ms.filter (fun m => m.type_ == "smbg")) s := by
  intro ms
  induction ms with
  | nil =>
    intro s h
    rw [show extract [] = some [] from rfl] at h
    rw [← Option.some_inj.mp h]
    simp
  | cons m rest ih =>
    intro s h
    by_cases hm : m.type_ = "smbg"
    · rw [extract_cons_smbg m rest hm] at h
      cases hc : convertOne m with
      | none => rw [hc] at h; cases h
      | some r =>
        rw [hc] at h
        cases he : extract rest with
        | none => rw [he] at h; cases h
        | some tail =>
          rw [he] at h
          rw [← Option.some_inj.mp h]
          rw [List.filter_cons_of_pos (by simpa using hm)]
          exact List.Forall₂.cons ⟨hm, hc⟩ (ih he)
    · rw [extract_cons_skip m rest hm] at h
      rw [List.filter_cons_of_neg (by simpa using hm)]
      exact ih h

theorem extract_isSome : ∀ ms : List RawMeasurement,
    (∀ m ∈ ms, m.type_ = "smbg" → 19 ≤ m.Devicetime.length) →
    (extract ms).isSome := by
  intro ms
  induction ms with
  | nil => intro _; rfl
  | cons m rest ih =>
    intro h
    have hrest := ih (fun x hx => h x (List.mem_cons_of_mem m hx))
    by_cases hm : m.type_ = "smbg"
    · rw [extract_cons_smbg m rest hm]
      obtain ⟨tail, htail⟩ := Option.isSome_iff_exists.mp hrest
      rw [htail, convertOne_eq_of_le m (h m (List.mem_cons_self m rest) hm)]
      rfl
    · rw [extract_cons_skip m rest hm]
      exact hrest

theorem extract_none_of_short : ∀ (ms : List RawMeasurement) (m : RawMeasurement),
    m ∈ ms → m.type_ = "smbg" → m.Devicetime.length < 19 → extract ms = none := by
  intro ms
  induction ms with
  | nil => intro m hm; cases hm
  | cons a rest ih =>
    intro m hm htype hlen
    rcases List.mem_cons.mp hm with rfl | hmem
    · rw [extract_cons_smbg m rest htype, convertOne_eq_none_of_lt m hlen]
    · have hrest : extract rest = none := ih m hmem htype hlen
      by_cases ha : a.type_ = "smbg"
      · rw [extract_cons_smbg a rest ha, hrest]
        cases convertOne a <;> rfl
      · rw [extract_cons_skip a rest ha]
        exact hrest

theorem goInt_eq_trunc (q : ℚ) : goInt q = if 0 ≤ q then ⌊q⌋ else ⌈q⌉ := by
  unfold goInt
  by_cases h : 0 ≤ q
  · rw [if_pos h, Rat.floor_def]
    exact Int.tdiv_eq_ediv (Rat.num_nonneg.mpr h) (by exact_mod_cast Nat.zero_le q.den)
  · rw [if_neg h]
    have hq : q.num < 0 := by
      rcases Int.lt_or_le q.num 0 with h1 | h1
      · exact h1
      · exact absurd (Rat.num_nonneg.mp h1) h
    have hneg : -⌊-q⌋ = ⌈q⌉ := by
      rw [Int.floor_neg]
      omega
    rw [← hneg, Rat.floor_def, Rat.neg_num, Rat.neg_den]
    rw [show q.num.tdiv q.den = -((-q.num).tdiv q.den) by rw [Int.neg_tdiv]; omega]
    rw [Int.tdiv_eq_ediv (by omega) (by exact_mod_cast Nat.zero_le q.den)]

/-! ## Claim theorems -/

/-- C5: for every `RawMeasurement` sequence, the `extract` output length is
at most the input length, every output element comes from an input element
whose subtype tag equals `"smbg"` (elements with any other tag are
discarded without affecting the result), input order is preserved (the
output aligns element-wise with the subsequence of `"smbg"` inputs), and
the empty input yields the empty output rather than an error. -/
theorem extract_shape_spec :
    extract [] = some [] ∧
    (∀ (m : RawMeasurement) (rest : List RawMeasurement),
      m.type_ ≠ "smbg" → extract (m :: rest) = extract rest) ∧
    (∀ (ms : List RawMeasurement) (s : List Smbg), extract ms = some s →
      s.length ≤ ms.length ∧
      List.Forall₂ (fun m r => m.type_ = "smbg" ∧ convertOne m = some r)
        (ms.filter (fun m => m.type_ == "smbg")) s) :=
  ⟨rfl, extract_cons_skip, fun _ _ h => ⟨extract_length h, extract_forall2 h⟩⟩

/-- Witness for C5 at a concrete two-element input (one `smbg` element,
one `cbg` element that is discarded). -/
theorem extract_shape_spec_witness :
    ([(⟨"2021-03-17", "08:33:00", "90"⟩ : Smbg)]).length ≤
      ([⟨"smbg", "2021-03-17T08:33:00", 5, ""⟩,
        ⟨"cbg", "2021-03-17T09:00:00", 6, ""⟩] : List RawMeasurement).length ∧
    List.Forall₂ (fun m r => m.type_ = "smbg" ∧ convertOne m = some r)
      (([⟨"smbg", "2021-03-17T08:33:00", 5, ""⟩,
         ⟨"cbg", "2021-03-17T09:00:00", 6, ""⟩] : List RawMeasurement).filter
        (fun m => m.type_ == "smbg"))
      [⟨"2021-03-17", "08:33:00", "90"⟩] :=
  extract_shape_spec.2.2
    [⟨"smbg", "2021-03-17T08:33:00", 5, ""⟩, ⟨"cbg", "2021-03-17T09:00:00", 6, ""⟩]
    [⟨"2021-03-17", "08:33:00", "90"⟩] (by with_unfolding_all rfl)

/-- C9: `extract` succeeds on exactly those inputs whose `"smbg"` elements
carry a device timestamp of at least 19 characters: under that bound the
error branch is unreachable, while any input containing an `"smbg"`
element with a shorter `Devicetime` makes the unguarded slices
`measdt[:10]` / `measdt[11:19]` fall out of range (Go's runtime panic,
the `none` branch of the embedding). -/
theorem extract_totality_spec :
    (∀ ms : List RawMeasurement,
      (∀ m ∈ ms, m.type_ = "smbg" → 19 ≤ m.Devicetime.length) →
      (extract ms).isSome) ∧
    (∀ (ms : List RawMeasurement) (m : RawMeasurement),
      m ∈ ms → m.type_ = "smbg" → m.Devicetime.length < 19 → extract ms = none) :=
  ⟨extract_isSome, extract_none_of_short⟩

/-- Witness for C9: a 19-character timestamp extracts successfully, a
10-character one hits the out-of-range branch. -/
theorem extract_totality_spec_witness :
    (extract [(⟨"smbg", "2021-03-17T08:33:00", 5, ""⟩ : RawMeasurement)]).isSome ∧
    extract [(⟨"smbg", "2021-03-17", 5, ""⟩ : RawMeasurement)] = none :=
  ⟨extract_totality_spec.1 [⟨"smbg", "2021-03-17T08:33:00", 5, ""⟩]
      (by intro m hm _; rw [List.mem_singleton] at hm; subst hm; decide),
   extract_totality_spec.2 [⟨"smbg", "2021-03-17", 5, ""⟩] ⟨"smbg", "2021-03-17", 5, ""⟩
      (List.mem_singleton.mpr rfl) rfl (by decide)⟩

/-- C6: for every matching measurement the displayed value is
round-toward-zero of the raw value times 18 (floor for nonnegative,
ceiling for negative products), rendered as a decimal string; a raw
value of `5.5` yields `"99"` and a raw value of `-0.1` yields `"-1"`
(truncation toward zero, not rounding). -/
theorem value_conversion_spec :
    (∀ (m : RawMeasurement) (r : Smbg), convertOne m = some r →
      r.smbgValue =
        toString (if (0 : ℚ) ≤ m.Value * 18 then ⌊m.Value * 18⌋ else ⌈m.Value * 18⌉)) ∧
    (∀ (m : RawMeasurement) (r : Smbg), m.Value = 5.5 → convertOne m = some r →
      r.smbgValue = "99") ∧
    (∀ (m : RawMeasurement) (r : Smbg), m.Value = -0.1 → convertOne m = some r →
      r.smbgValue = "-1") := by
  refine ⟨?_, ?_, ?_⟩
  · intro m r h
    obtain ⟨-, rfl⟩ := convertOne_some_iff.mp h
    rw [show (⟨_, _, toString (goInt (m.Value * 18))⟩ : Smbg).smbgValue
          = toString (goInt (m.Value * 18)) from rfl]
    rw [goInt_eq_trunc]
  · intro m r hv h
    obtain ⟨-, rfl⟩ := convertOne_some_iff.mp h
    rw [show (⟨_, _, toString (goInt (m.Value * 18))⟩ : Smbg).smbgValue
          = toString (goInt (m.Value * 18)) from rfl, hv]
    with_unfolding_all rfl
  · intro m r hv h
    obtain ⟨-, rfl⟩ := convertOne_some_iff.mp h
    rw [show (⟨_, _, toString (goInt (m.Value * 18))⟩ : Smbg).smbgValue
          = toString (goInt (m.Value * 18)) from rfl, hv]
    with_unfolding_all rfl

/-- Witness for C6 at concrete measurements with raw values `5.5` and
`-0.1`. -/
theorem value_conversion_spec_witness :
    (Smbg.mk "2021-03-17" "08:33:00" "99").smbgValue = "99" ∧
    (Smbg.mk "2021-03-17" "08:33:00" "-1").smbgValue = "-1" :=
  ⟨value_conversion_spec.2.1 ⟨"smbg", "2021-03-17T08:33:00", 5.5, ""⟩
      ⟨"2021-03-17", "08:33:00", "99"⟩ rfl (by with_unfolding_all rfl),
   value_conversion_spec.2.2 ⟨"smbg", "2021-03-17T08:33:00", -0.1, ""⟩
      ⟨"2021-03-17", "08:33:00", "-1"⟩ rfl (by with_unfolding_all rfl)⟩

/-- C7: for every matching measurement the date field is characters
`[0,10)` and the time field is characters `[11,19)` of the device
timestamp, taken verbatim (no timezone conversion); the timestamp
`"2021-03-17T08:33:00"` yields date `"2021-03-17"` and time
`"08:33:00"`. -/
theorem timestamp_slicing_spec :
    (∀ (m : RawMeasurement) (r : Smbg), convertOne m = some r →
      r.smbgDate.data = m.Devicetime.data.take 10 ∧
      r.smbgTime.data = (m.Devicetime.data.drop 11).take 8) ∧
    (∀ (m : RawMeasurement) (r : Smbg),
      m.Devicetime = "2021-03-17T08:33:00" → convertOne m = some r →
      r.smbgDate = "2021-03-17" ∧ r.smbgTime = "08:33:00") := by
  constructor
  · intro m r h
    obtain ⟨-, rfl⟩ := convertOne_some_iff.mp h
    exact ⟨rfl, rfl⟩
  · intro m r hdt h
    obtain ⟨-, rfl⟩ := convertOne_some_iff.mp h
    rw [show (⟨String.mk (m.Devicetime.data.take 10), String.mk
          ((m.Devicetime.data.drop 11).take 8), _⟩ : Smbg).smbgDate
          = String.mk (m.Devicetime.data.take 10) from rfl]
    rw [show (⟨String.mk (m.Devicetime.data.take 10), String.mk
          ((m.Devicetime.data.drop 11).take 8), _⟩ : Smbg).smbgTime
          = String.mk ((m.Devicetime.data.drop 11).take 8) from rfl]
    rw [hdt]
    exact ⟨rfl, rfl⟩

/-- Witness for C7 at the concrete timestamp of the claim. -/
theorem timestamp_slicing_spec_witness :
    (Smbg.mk "2021-03-17" "08:33:00" "90").smbgDate = "2021-03-17" ∧
    (Smbg.mk "2021-03-17" "08:33:00" "90").smbgTime = "08:33:00" :=
  timestamp_slicing_spec.2 ⟨"smbg", "2021-03-17T08:33:00", 5, ""⟩
    ⟨"2021-03-17", "08:33:00", "90"⟩ rfl (by with_unfolding_all rfl)

/-- C3: classification first attempts the measurement-array parse and
only on its structural failure parses the bytes as a `tpError` object;
an object-shaped payload can never classify as a success sequence, and
the concrete payload
`\x7b"status":403,"id":"x","code":"invalid","message":"bad creds"\x7d`
classifies as a service error with matching fields. -/
theorem classify_object_payload_spec :
    (∀ (body : String) (ms : List RawMeasurement),
      unmarshalMeasurements body = some ms → classify body = .success ms) ∧
    (∀ (body : String) (fields : List (String × Json)),
      parseJson body = some (.obj fields) →
      ∀ ms : List RawMeasurement, classify body ≠ .success ms) ∧
    classify "\x7b\"status\":403,\"id\":\"x\",\"code\":\"invalid\",\"message\":\"bad creds\"\x7d"
      = .serviceError ⟨403, "x", "invalid", "bad creds"⟩ := by
  refine ⟨?_, ?_, by rfl⟩
  · intro body ms h
    unfold classify
    rw [h]
  · intro body fields hp ms
    have hm : unmarshalMeasurements body = none := by
      unfold unmarshalMeasurements
      rw [hp]
      rfl
    unfold classify
    rw [hm]
    cases unmarshalTpError body <;> simp

/-- Witness for C3: the empty-array payload takes the first (success)
branch of the classification. -/
theorem classify_object_payload_spec_witness :
    classify "[]" = ClassifyResult.success [] :=
  classify_object_payload_spec.1 "[]" [] (by rfl)

/-- C4: for every byte sequence that parses as neither the
measurement-array shape nor the error-object shape, the outcome is the
malformed-payload classification, and `send` surfaces it to the caller
as the `undecodable` outcome (nothing is rendered); `"not json"` is a
concrete such input, and the malformed kind is a constructor distinct
from the success and service-error kinds. -/
theorem classify_malformed_payload_spec :
    (∀ body : String, unmarshalMeasurements body = none →
      unmarshalTpError body = none → classify body = .malformed) ∧
    (∀ (sd ed dt : String) (lr dr : HttpResponse),
      unmarshalMeasurements dr.body = none → unmarshalTpError dr.body = none →
      (send sd ed dt lr dr).outcome = .undecodable) ∧
    classify "not json" = .malformed ∧
    (send "" "" "smbg" ⟨200, "200 OK", [], "\x7b\x7d"⟩
      ⟨200, "200 OK", [], "not json"⟩).outcome = .undecodable ∧
    (∀ e : tpError,
      decide (ClassifyResult.malformed = ClassifyResult.serviceError e) = false) ∧
    (∀ ms : List RawMeasurement,
      decide (ClassifyResult.malformed = ClassifyResult.success ms) = false) := by
  refine ⟨?_, ?_, by rfl, by rfl, fun e => rfl, fun ms => rfl⟩
  · intro body h1 h2
    unfold classify
    rw [h1, h2]
  · intro sd ed dt lr dr h1 h2
    show (match decodeTidepoolData dr.body with
      | .unmarshalError =>
        match unmarshalTpError dr.body with
        | some e => SendOutcome.errorPage e
        | none => SendOutcome.undecodable
      | .panicked => SendOutcome.panicked
      | .ok s => SendOutcome.pdf s) = SendOutcome.undecodable
    have hd : decodeTidepoolData dr.body = .unmarshalError := by
      unfold decodeTidepoolData
      rw [h1]
    rw [hd, h2]

/-- Witness for C4: the bytes `"not json"` fail both parses, classify
as malformed and leave `send` with nothing to render. -/
theorem classify_malformed_payload_spec_witness :
    classify "not json" = ClassifyResult.malformed ∧
    (send "" "" "smbg" ⟨200, "200 OK", [], "[]"⟩
      ⟨200, "200 OK", [], "not json"⟩).outcome = SendOutcome.undecodable :=
  ⟨classify_malformed_payload_spec.1 "not json" (by rfl) (by rfl),
   classify_malformed_payload_spec.2.1 "" "" "smbg" ⟨200, "200 OK", [], "[]"⟩
     ⟨200, "200 OK", [], "not json"⟩ (by rfl) (by rfl)⟩

/-- C8: the date-range query string from `checkDateRanges`: a start date
alone yields exactly the `startDate` parameter, an end date alone yields
exactly the `endDate` parameter, both bounds yield both parameters in
start-then-end order (each rendered as `<isoDate>T01:00:00.000Z`), and
no bounds yield the empty string. -/
theorem date_range_query_spec :
    checkDateRanges "2021-01-01" "" = "&startDate=2021-01-01T01:00:00.000Z" ∧
    (∀ s : String, s ≠ "" →
      checkDateRanges s "" = "&startDate=" ++ s ++ "T01:00:00.000Z") ∧
    (∀ e : String, e ≠ "" →
      checkDateRanges "" e = "&endDate=" ++ e ++ "T01:00:00.000Z") ∧
    (∀ s e : String, s ≠ "" → e ≠ "" →
      checkDateRanges s e =
        "&startDate=" ++ s ++ "T01:00:00.000Z" ++ "&endDate=" ++ e ++ "T01:00:00.000Z") ∧
    checkDateRanges "" "" = "" := by
  refine ⟨by rfl, ?_, ?_, ?_, by rfl⟩
  · intro s hs
    show (if s = "" ∧ ("" : String) = "" then ""
      else if ("" : String) ≠ ""
        then (if s ≠ "" then "" ++ "&startDate=" ++ s ++ "T01:00:00.000Z" else "")
          ++ "&endDate=" ++ "" ++ "T01:00:00.000Z"
        else (if s ≠ "" then "" ++ "&startDate=" ++ s ++ "T01:00:00.000Z" else "")) =
      "&startDate=" ++ s ++ "T01:00:00.000Z"
    rw [if_neg (show ¬(s = "" ∧ ("" : String) = "") from fun hc => hs hc.1),
      if_neg (show ¬(("" : String) ≠ "") by simp), if_pos hs]
    rfl
  · intro e he
    show (if ("" : String) = "" ∧ e = "" then ""
      else if e ≠ ""
        then (if ("" : String) ≠ "" then "" ++ "&startDate=" ++ "" ++ "T01:00:00.000Z" else "")
          ++ "&endDate=" ++ e ++ "T01:00:00.000Z"
        else (if ("" : String) ≠ "" then "" ++ "&startDate=" ++ "" ++ "T01:00:00.000Z" else "")) =
      "&endDate=" ++ e ++ "T01:00:00.000Z"
    rw [if_neg (show ¬(("" : String) = "" ∧ e = "") from fun hc => he hc.2),
      if_neg (show ¬(("" : String) ≠ "") by simp), if_pos he]
    rfl
  · intro s e hs he
    show (if s = "" ∧ e = "" then ""
      else if e ≠ ""
        then (if s ≠ "" then "" ++ "&startDate=" ++ s ++ "T01:00:00.000Z" else "")
          ++ "&endDate=" ++ e ++ "T01:00:00.000Z"
        else (if s ≠ "" then "" ++ "&startDate=" ++ s ++ "T01:00:00.000Z" else "")) =
      "&startDate=" ++ s ++ "T01:00:00.000Z" ++ "&endDate=" ++ e ++ "T01:00:00.000Z"
    rw [if_neg (show ¬(s = "" ∧ e = "") from fun hc => hs hc.1), if_pos hs, if_pos he]
    rfl

/-- Witness for C8 at concrete bounds. -/
theorem date_range_query_spec_witness :
    checkDateRanges "2021-01-01" "2021-02-02" =
      "&startDate=" ++ "2021-01-01" ++ "T01:00:00.000Z"
        ++ "&endDate=" ++ "2021-02-02" ++ "T01:00:00.000Z" :=
  date_range_query_spec.2.2.2.1 "2021-01-01" "2021-02-02" (by decide) (by decide)

/-- C1 (code bug in the source): the non-200 test after the login call
hands `check` a nil error, so `check` never aborts there; the handler
proceeds to read the session token and to issue the data request instead
of failing with an auth error.  The concrete run has a 403 login
response, yet the token is read, the data URL is built and the data
response is rendered. -/
theorem login_non200_does_not_fail :
    (∀ (sd ed dt : String) (lr dr : HttpResponse),
      (send sd ed dt lr dr).authCheckAborted = false) ∧
    send "" "" "smbg"
      ⟨403, "403 Forbidden", [("x-tidepool-session-token", "TOK")],
        "\x7b\"userid\":\"u1\"\x7d"⟩
      ⟨200, "200 OK", [], "[]"⟩ =
      ⟨false, "TOK", "u1", "https://int-api.tidepool.org/data/u1?type=smbg", false,
        .pdf []⟩ := by
  constructor
  · intro sd ed dt lr dr
    show (if lr.statusCode ≠ 200 then
        check none ("Authorization Call: Bad request response" ++ lr.status)
      else false) = false
    split <;> rfl
  · rfl

/-- C2 (code bug in the source): the non-200 test after the data call
also hands `check` a nil error, so the handler never fails with a fetch
error and uses the response body as the success payload regardless of
the status.  The concrete run has a 500 data response whose body is
still decoded and rendered as a PDF. -/
theorem fetch_non200_does_not_fail :
    (∀ (sd ed dt : String) (lr dr : HttpResponse),
      (send sd ed dt lr dr).dataCheckAborted = false) ∧
    send "" "" "smbg"
      ⟨200, "200 OK", [("x-tidepool-session-token", "TOK")],
        "\x7b\"userid\":\"u1\"\x7d"⟩
      ⟨500, "500 Internal Server Error", [], "[]"⟩ =
      ⟨false, "TOK", "u1", "https://int-api.tidepool.org/data/u1?type=smbg", false,
        .pdf []⟩ := by
  constructor
  · intro sd ed dt lr dr
    show (if dr.statusCode ≠ 200 then
        check none ("Data API call: Unexpected response status =  " ++ dr.status)
      else false) = false
    split <;> rfl
  · rfl

/-- C10: when the login body holds no `"userid"` field (absent field or
unparseable body — the unmarshal error is discarded), `send` does not
fail: the account identifier becomes the literal string `"<nil>"` and is
embedded verbatim into the data-fetch URL path. -/
theorem userid_nil_coercion :
    ∀ (sd ed dt : String) (lr dr : HttpResponse),
      mapLookup (unmarshalStringMap lr.body) "userid" = none →
      (send sd ed dt lr dr).userid = "<nil>" ∧
      (send sd ed dt lr dr).dataUrl =
        "https://int-api.tidepool.org/data/" ++ "<nil>" ++ "?type=" ++ dt
          ++ checkDateRanges sd ed := by
  intro sd ed dt lr dr h
  constructor
  · show sprintfV (mapLookup (unmarshalStringMap lr.body) "userid") = "<nil>"
    rw [h]
    rfl
  · show (if checkDateRanges sd ed ≠ "" then
        "https://int-api.tidepool.org/data/"
          ++ sprintfV (mapLookup (unmarshalStringMap lr.body) "userid")
          ++ "?type=" ++ dt ++ checkDateRanges sd ed
      else "https://int-api.tidepool.org/data/"
          ++ sprintfV (mapLookup (unmarshalStringMap lr.body) "userid")
          ++ "?type=" ++ dt) = _
    rw [h]
    by_cases hq : checkDateRanges sd ed = ""
    · rw [if_neg (show ¬checkDateRanges sd ed ≠ "" by simp [hq]), hq, String.append_empty]
      rfl
    · rw [if_pos hq]
      rfl

/-- Witness for C10: a login body with no `userid` field and an
unparseable login body both produce the `"<nil>"` account id in the
URL. -/
theorem userid_nil_coercion_witness :
    ((send "" "" "smbg" ⟨200, "200 OK", [], "\x7b\x7d"⟩
        ⟨200, "200 OK", [], "[]"⟩).userid = "<nil>" ∧
      (send "" "" "smbg" ⟨200, "200 OK", [], "\x7b\x7d"⟩
        ⟨200, "200 OK", [], "[]"⟩).dataUrl =
        "https://int-api.tidepool.org/data/" ++ "<nil>" ++ "?type=" ++ "smbg"
          ++ checkDateRanges "" "") ∧
    ((send "" "" "smbg" ⟨200, "200 OK", [], "not json"⟩
        ⟨200, "200 OK", [], "[]"⟩).userid = "<nil>" ∧
      (send "" "" "smbg" ⟨200, "200 OK", [], "not json"⟩
        ⟨200, "200 OK", [], "[]"⟩).dataUrl =
        "https://int-api.tidepool.org/data/" ++ "<nil>" ++ "?type=" ++ "smbg"
          ++ checkDateRanges "" "") :=
  ⟨userid_nil_coercion "" "" "smbg" ⟨200, "200 OK", [], "\x7b\x7d"⟩
      ⟨200, "200 OK", [], "[]"⟩ (by rfl),
   userid_nil_coercion "" "" "smbg" ⟨200, "200 OK", [], "not json"⟩
      ⟨200, "200 OK", [], "[]"⟩ (by rfl)⟩

end TidepoolReport
